import Mathlib

/-!
Shallow embedding of the `molecularnetwork` package
(`featurizer.py`, `similarity.py`, `graph.py`, `utils.py`).

External collaborators (RDKit parsing, the fingerprint functions and the
numeric similarity formulas) are opaque to the core, so they are passed in
as a `Toolkit` parameter; the core pipeline (dictionary dispatch, error
raising, label normalisation, node and edge construction, graph mutation)
is translated line by line from the Python source.  Similarity scores are
modelled as rationals; Python exceptions become an explicit error type.
-/

namespace MolNet

/-- The Python exceptions the pipeline can raise: `InvalidSMILESError`
(raised bare, carrying no data, in `featurizer.py`), a `KeyError` from a
dictionary lookup with the missing key, and a `TypeError` from calling a
function with the wrong number of arguments. -/
inductive PyError where
  | invalidSMILESError : PyError
  | keyError : String → PyError
  | typeError : PyError
deriving DecidableEq, Repr

/-- The external chemistry toolkit: SMILES parsing (`Chem.MolFromSmiles`,
`none` = unparseable), the fingerprint function selected by descriptor
name, the two-argument similarity functions selected by metric name, and
the four-argument Tversky similarity.  `μ` is the molecule type, `α` the
fingerprint type. -/
structure Toolkit (μ α : Type) where
  parse : String → Option μ
  descFns : String → μ → α
  binFns : String → α → α → ℚ
  tverskyFn : α → α → ℚ → ℚ → ℚ

/-- The keys of the `self.descriptors` dictionary in
`FingerprintCalculator.__init__`. -/
def supportedDescriptors : List String :=
  ["atompairs", "maccs", "morgan2", "morgan3", "rdkit", "topo"]

/-- Embeds `FingerprintCalculator.__init__`: it just stores the descriptor name;
it performs no validation. -/
structure FingerprintCalculator where
  descriptor : String
deriving DecidableEq

/-- Embeds `SimilarityCalculator.__init__`: it just stores the metric name;
it performs no validation. -/
structure SimilarityCalculator where
  sim_metric : String
deriving DecidableEq

/-- Embeds `FingerprintCalculator.calculate_fingerprint`: parse the SMILES first
(`mol = Chem.MolFromSmiles(smiles)`); if parsing succeeds, look up
`self.descriptors[self.descriptor]` (a `KeyError` if the stored name is
not a key) and apply it; otherwise `raise InvalidSMILESError`. -/
def calculate_fingerprint {μ α : Type} (tk : Toolkit μ α)
    (fc : FingerprintCalculator) (smiles : String) : Except PyError α :=
  match tk.parse smiles with
  | some mol =>
      if fc.descriptor ∈ supportedDescriptors then
        Except.ok (tk.descFns fc.descriptor mol)
      else
        Except.error (PyError.keyError fc.descriptor)
  | none => Except.error PyError.invalidSMILESError

/-- Embeds `MolecularNetwork._calculate_fingerprints`: the list comprehension
evaluates in input order and aborts at the first raising element. -/
def calculate_fingerprints {μ α : Type} (tk : Toolkit μ α)
    (fc : FingerprintCalculator) : List String → Except PyError (List α)
  | [] => Except.ok []
  | smi :: rest =>
      match calculate_fingerprint tk fc smi with
      | Except.error e => Except.error e
      | Except.ok fp =>
          match calculate_fingerprints tk fc rest with
          | Except.error e => Except.error e
          | Except.ok fps => Except.ok (fp :: fps)

/-- A value of the `self.metrics` dictionary in
`SimilarityCalculator.__init__`: eleven entries are plain two-argument
functions, the `"tversky"` entry is a four-argument lambda. -/
inductive MetricEntry (α : Type) where
  | binary : (α → α → ℚ) → MetricEntry α
  | quaternary : (α → α → ℚ → ℚ → ℚ) → MetricEntry α

/-- The eleven keys of `self.metrics` whose values take two arguments. -/
def binaryMetricNames : List String :=
  ["asymmetric", "braunblanquet", "cosine", "dice", "kulczynski",
   "mcconnaughey", "onbit", "rogotgoldberg", "russel", "sokal", "tanimoto"]

/-- All twelve keys of the `self.metrics` dictionary. -/
def metricNames : List String := binaryMetricNames ++ ["tversky"]

/-- Lookup in the `self.metrics` dictionary: `none` models a `KeyError`. -/
def metricsLookup {μ α : Type} (tk : Toolkit μ α) (name : String) :
    Option (MetricEntry α) :=
  if name = "tversky" then some (MetricEntry.quaternary tk.tverskyFn)
  else if name ∈ binaryMetricNames then some (MetricEntry.binary (tk.binFns name))
  else none

/-- Embeds `SimilarityCalculator.calculate_similarity`: look up
`self.metrics[self.sim_metric]` (a `KeyError` if absent), call it with the
two fingerprints in both orders (a `TypeError` if the stored function
takes four arguments) and return the max. -/
def calculate_similarity {μ α : Type} (tk : Toolkit μ α)
    (sc : SimilarityCalculator) (fp1 fp2 : α) : Except PyError ℚ :=
  match metricsLookup tk sc.sim_metric with
  | none => Except.error (PyError.keyError sc.sim_metric)
  | some (MetricEntry.binary f) => Except.ok (max (f fp1 fp2) (f fp2 fp1))
  | some (MetricEntry.quaternary _) => Except.error PyError.typeError

/-- Embeds `np.unique`: the sorted list of distinct values. -/
def npUnique {β : Type} [LinearOrder β] (l : List β) : List β :=
  List.insertionSort (· ≤ ·) l.dedup

/-- Embeds `MolecularNetwork._convert_classes`: `unique_classes = np.unique(classes)`
and, since `categorical_labels = np.arange(len(unique_classes))`, each
entry of `class_labels` is the first index of that class inside
`unique_classes` (`np.where(unique_classes == c)[0][0]`). -/
def convert_classes {β : Type} [LinearOrder β] (classes : List β) :
    List β × List ℕ :=
  let unique_classes := npUnique classes
  (unique_classes, classes.map fun c => unique_classes.indexOf c)

/-- The attribute dictionary our code attaches to a node. -/
structure NodeAttrs where
  smiles : String
  categorical_label : String
deriving DecidableEq, Repr

instance : Inhabited NodeAttrs := ⟨⟨"", ""⟩⟩

/-- A `networkx.Graph`: nodes keyed by integer id with an optional
attribute dictionary (`none` models the empty attribute dict of a node
created implicitly by `add_edge`), and an undirected edge list. -/
structure Graph where
  nodes : List (ℕ × Option NodeAttrs)
  edges : List (ℕ × ℕ)
deriving DecidableEq, Repr

/-- Embeds `networkx.Graph()`: the empty graph. -/
def emptyGraph : Graph := { nodes := [], edges := [] }

/-- Whether a node id is present in the graph. -/
def containsNode (g : Graph) (i : ℕ) : Bool :=
  g.nodes.any fun p => p.1 = i

/-- Whether the undirected edge `{i, j}` is present in the graph. -/
def hasEdge (g : Graph) (i j : ℕ) : Bool :=
  g.edges.any fun e => (e.1 = i && e.2 = j) || (e.1 = j && e.2 = i)

/-- Embeds `networkx` node insertion with attributes: an existing node has its
attribute dictionary updated, a new node is appended. -/
def addNodeWithAttrs (g : Graph) (i : ℕ) (a : NodeAttrs) : Graph :=
  if containsNode g i then
    { g with nodes := g.nodes.map fun p => if p.1 = i then (i, some a) else p }
  else
    { g with nodes := g.nodes ++ [(i, some a)] }

/-- Embeds `networkx` implicit node creation by `add_edge`: a missing endpoint is
appended with an empty attribute dictionary. -/
def ensureNode (g : Graph) (i : ℕ) : Graph :=
  if containsNode g i then g else { g with nodes := g.nodes ++ [(i, none)] }

/-- The edge-insertion step of `networkx.Graph.add_edge` once both
endpoints exist: add the undirected edge unless it is already present. -/
def addEdgeRaw (g : Graph) (i j : ℕ) : Graph :=
  if hasEdge g i j then g else { g with edges := g.edges ++ [(i, j)] }

/-- Embeds `networkx.Graph.add_edge i j`: create missing endpoints, then add the
undirected edge unless it is already present. -/
def add_edge (g : Graph) (i j : ℕ) : Graph :=
  addEdgeRaw (ensureNode (ensureNode g i) j) i j

/-- Embeds `MolecularNetwork._add_nodes`: build the `weighted_nodes` list by
zipping `range(len(smiles_list))` with `categorical_labels` (zip truncates
to the shorter sequence) and hand it to `add_nodes_from`. -/
def add_nodes {β : Type} [Inhabited β] (strB : β → String) (g : Graph)
    (smiles_list : List String) (unique_classes : List β)
    (categorical_labels : List ℕ) : Graph :=
  let weighted_nodes :=
    ((List.range smiles_list.length).zip categorical_labels).map fun nv =>
      (nv.1, { smiles := smiles_list.getD nv.1 ""
               categorical_label := strB (unique_classes.getD nv.2 default) :
               NodeAttrs })
  weighted_nodes.foldl (fun g p => addNodeWithAttrs g p.1 p.2) g

/-- The iteration order of the two nested loops in
`MolecularNetwork._add_edges`: all pairs `(i, j)` with `i < j < n`,
outer loop on `i`, inner loop on `j in range(i+1, n)`. -/
def pairsList (n : ℕ) : List (ℕ × ℕ) :=
  (List.range n).flatMap fun i => (List.range' (i + 1) (n - (i + 1))).map fun j => (i, j)

/-- The loop body sequence of `MolecularNetwork._add_edges`: for each pair
compute the similarity (propagating any exception, which leaves the graph
as mutated so far) and add the edge when it strictly exceeds the
threshold. -/
def addEdgesRun {μ α : Type} [Inhabited α] (tk : Toolkit μ α)
    (sc : SimilarityCalculator) (t : ℚ) (fps : List α) :
    Graph → List (ℕ × ℕ) → Graph × Option PyError
  | g, [] => (g, none)
  | g, p :: ps =>
      match calculate_similarity tk sc (fps.getD p.1 default) (fps.getD p.2 default) with
      | Except.error e => (g, some e)
      | Except.ok sim_val =>
          addEdgesRun tk sc t fps (if sim_val > t then add_edge g p.1 p.2 else g) ps

/-- Embeds `MolecularNetwork._add_edges`. -/
def add_edges {μ α : Type} [Inhabited α] (tk : Toolkit μ α)
    (sc : SimilarityCalculator) (t : ℚ) (g : Graph) (fps : List α) :
    Graph × Option PyError :=
  addEdgesRun tk sc t fps g (pairsList fps.length)

/-- Embeds `MolecularNetwork._create_graph` (the body of the public
`create_graph`): compute all fingerprints first (an exception here leaves
the graph untouched), normalise the classes, add the nodes, then add the
edges.  The result is the builder's graph after the call together with the
exception, if one was raised. -/
def create_graph {μ α β : Type} [Inhabited α] [Inhabited β] [LinearOrder β]
    (tk : Toolkit μ α) (strB : β → String) (fc : FingerprintCalculator)
    (sc : SimilarityCalculator) (t : ℚ) (g : Graph)
    (smiles_list : List String) (classes : List β) : Graph × Option PyError :=
  match calculate_fingerprints tk fc smiles_list with
  | Except.error e => (g, some e)
  | Except.ok fps =>
      let uc := (convert_classes classes).1
      let labels := (convert_classes classes).2
      let g2 := add_nodes strB g smiles_list uc labels
      add_edges tk sc t g2 fps

/-! ### Concrete collaborator instantiations used to exercise the pipeline -/

/-- A stub toolkit: every SMILES parses, the one fingerprint is trivial,
and every two-argument similarity function returns `1`. -/
def tkConst : Toolkit Unit Unit :=
  { parse := fun _ => some ()
    descFns := fun _ _ => ()
    binFns := fun _ _ _ => 1
    tverskyFn := fun _ _ _ _ => 1 }

/-- A stub toolkit on which no SMILES parses. -/
def tkNone : Toolkit Unit Unit :=
  { parse := fun _ => none
    descFns := fun _ _ => ()
    binFns := fun _ _ _ => 1
    tverskyFn := fun _ _ _ _ => 1 }

/-- A stub toolkit on which exactly the string "bogus!!" fails to parse. -/
def tkBogus : Toolkit Unit Unit :=
  { parse := fun s => if s = "bogus!!" then none else some ()
    descFns := fun _ _ => ()
    binFns := fun _ _ _ => 1
    tverskyFn := fun _ _ _ _ => 1 }

/-! ### Similarity calculator lemmas -/

lemma mem_binaryMetricNames_ne_tversky {m : String}
    (h : m ∈ binaryMetricNames) : m ≠ "tversky" := by
  intro e
  subst e
  exact absurd h (by decide)

lemma calculate_similarity_binary {μ α : Type} (tk : Toolkit μ α)
    (sc : SimilarityCalculator) (h : sc.sim_metric ∈ binaryMetricNames)
    (fp1 fp2 : α) :
    calculate_similarity tk sc fp1 fp2 =
      Except.ok (max (tk.binFns sc.sim_metric fp1 fp2)
                     (tk.binFns sc.sim_metric fp2 fp1)) := by
  unfold calculate_similarity metricsLookup
  rw [if_neg (mem_binaryMetricNames_ne_tversky h), if_pos h]

lemma calculate_similarity_tversky {μ α : Type} (tk : Toolkit μ α)
    (sc : SimilarityCalculator) (h : sc.sim_metric = "tversky")
    (fp1 fp2 : α) :
    calculate_similarity tk sc fp1 fp2 = Except.error PyError.typeError := by
  unfold calculate_similarity metricsLookup
  rw [if_pos h]

lemma calculate_similarity_error_of_supported {μ α : Type} (tk : Toolkit μ α)
    (sc : SimilarityCalculator) (h : sc.sim_metric ∈ metricNames)
    (fp1 fp2 : α) (e : PyError)
    (he : calculate_similarity tk sc fp1 fp2 = Except.error e) :
    e = PyError.typeError := by
  rcases List.mem_append.mp h with hb | ht
  · rw [calculate_similarity_binary tk sc hb] at he
    exact absurd he (by simp)
  · rw [calculate_similarity_tversky tk sc (List.mem_singleton.mp ht)] at he
    exact (Except.error.injEq _ _).mp he |>.symm

/-! ### Fingerprint pipeline lemmas -/

lemma calculate_fingerprint_of_parse {μ α : Type} (tk : Toolkit μ α)
    (fc : FingerprintCalculator) (hd : fc.descriptor ∈ supportedDescriptors)
    {smiles : String} {mol : μ} (hp : tk.parse smiles = some mol) :
    calculate_fingerprint tk fc smiles =
      Except.ok (tk.descFns fc.descriptor mol) := by
  unfold calculate_fingerprint
  rw [hp]
  exact if_pos hd

lemma calculate_fingerprint_of_parse_none {μ α : Type} (tk : Toolkit μ α)
    (fc : FingerprintCalculator) {smiles : String}
    (hp : tk.parse smiles = none) :
    calculate_fingerprint tk fc smiles =
      Except.error PyError.invalidSMILESError := by
  unfold calculate_fingerprint
  rw [hp]

lemma calculate_fingerprints_length {μ α : Type} (tk : Toolkit μ α)
    (fc : FingerprintCalculator) :
    ∀ (l : List String) (fps : List α),
      calculate_fingerprints tk fc l = Except.ok fps →
      fps.length = l.length := by
  intro l
  induction l with
  | nil =>
      intro fps h
      unfold calculate_fingerprints at h
      cases h
      rfl
  | cons smi rest ih =>
      intro fps h
      unfold calculate_fingerprints at h
      cases h1 : calculate_fingerprint tk fc smi with
      | error e => rw [h1] at h; cases h
      | ok fp =>
          rw [h1] at h
          cases h2 : calculate_fingerprints tk fc rest with
          | error e => rw [h2] at h; cases h
          | ok fps' =>
              rw [h2] at h
              cases h
              simp [ih fps' h2]

lemma calculate_fingerprints_error_supported {μ α : Type} (tk : Toolkit μ α)
    (fc : FingerprintCalculator) (hd : fc.descriptor ∈ supportedDescriptors) :
    ∀ (l : List String) (e : PyError),
      calculate_fingerprints tk fc l = Except.error e →
      e = PyError.invalidSMILESError := by
  intro l
  induction l with
  | nil =>
      intro e h
      unfold calculate_fingerprints at h
      cases h
  | cons smi rest ih =>
      intro e h
      unfold calculate_fingerprints at h
      cases hp : tk.parse smi with
      | none =>
          rw [calculate_fingerprint_of_parse_none tk fc hp] at h
          cases h
          rfl
      | some mol =>
          rw [calculate_fingerprint_of_parse tk fc hd hp] at h
          cases h2 : calculate_fingerprints tk fc rest with
          | error e' =>
              rw [h2] at h
              cases h
              exact ih e h2
          | ok fps => rw [h2] at h; cases h

/-! ### Graph primitive lemmas -/

lemma hasEdge_iff (g : Graph) (i j : ℕ) :
    hasEdge g i j = true ↔
      ∃ e ∈ g.edges, (e.1 = i ∧ e.2 = j) ∨ (e.1 = j ∧ e.2 = i) := by
  simp [hasEdge, List.any_eq_true]

lemma hasEdge_comm (g : Graph) (i j : ℕ) : hasEdge g i j = hasEdge g j i := by
  rw [Bool.eq_iff_iff, hasEdge_iff, hasEdge_iff]
  constructor
  · rintro ⟨e, he, h | h⟩
    · exact ⟨e, he, Or.inr h⟩
    · exact ⟨e, he, Or.inl h⟩
  · rintro ⟨e, he, h | h⟩
    · exact ⟨e, he, Or.inr h⟩
    · exact ⟨e, he, Or.inl h⟩

lemma containsNode_iff (g : Graph) (i : ℕ) :
    containsNode g i = true ↔ i ∈ g.nodes.map Prod.fst := by
  simp [containsNode, List.any_eq_true, List.mem_map]

lemma edges_ensureNode (g : Graph) (i : ℕ) : (ensureNode g i).edges = g.edges := by
  unfold ensureNode
  split <;> rfl

lemma hasEdge_ensureNode (g : Graph) (i a b : ℕ) :
    hasEdge (ensureNode g i) a b = hasEdge g a b := by
  unfold hasEdge
  rw [edges_ensureNode]

lemma nodes_map_fst_ensureNode (g : Graph) (i : ℕ) :
    (ensureNode g i).nodes.map Prod.fst =
      g.nodes.map Prod.fst ++ (if containsNode g i then [] else [i]) := by
  unfold ensureNode
  split <;> simp

lemma nodes_ensureNode_of_contains (g : Graph) (i : ℕ)
    (h : containsNode g i = true) : (ensureNode g i).nodes = g.nodes := by
  unfold ensureNode
  rw [if_pos h]

lemma containsNode_ensureNode_self (g : Graph) (i : ℕ) :
    containsNode (ensureNode g i) i = true := by
  rw [containsNode_iff, nodes_map_fst_ensureNode]
  by_cases h : containsNode g i = true
  · rw [if_pos h]
    simpa using (containsNode_iff g i).mp h
  · rw [if_neg h]
    simp

lemma containsNode_ensureNode_mono (g : Graph) (i x : ℕ)
    (h : containsNode g x = true) : containsNode (ensureNode g i) x = true := by
  rw [containsNode_iff, nodes_map_fst_ensureNode]
  rw [containsNode_iff] at h
  exact List.mem_append.mpr (Or.inl h)

lemma edges_add_edge_not_present (g : Graph) (i j : ℕ)
    (h : hasEdge g i j = false) :
    (add_edge g i j).edges = g.edges ++ [(i, j)] := by
  unfold add_edge addEdgeRaw
  rw [if_neg (by rw [hasEdge_ensureNode, hasEdge_ensureNode, h]; exact Bool.false_ne_true)]
  rw [edges_ensureNode, edges_ensureNode]

lemma edges_add_edge_present (g : Graph) (i j : ℕ)
    (h : hasEdge g i j = true) : (add_edge g i j).edges = g.edges := by
  unfold add_edge addEdgeRaw
  rw [if_pos (by rw [hasEdge_ensureNode, hasEdge_ensureNode]; exact h)]
  rw [edges_ensureNode, edges_ensureNode]

lemma edges_add_edge_extends (g : Graph) (i j : ℕ) :
    ∃ tail, (add_edge g i j).edges = g.edges ++ tail := by
  cases h : hasEdge g i j with
  | true => exact ⟨[], by rw [edges_add_edge_present g i j h, List.append_nil]⟩
  | false => exact ⟨[(i, j)], edges_add_edge_not_present g i j h⟩

lemma hasEdge_add_edge_iff (g : Graph) (i j a b : ℕ) :
    hasEdge (add_edge g i j) a b = true ↔
      (hasEdge g a b = true ∨ ((i = a ∧ j = b) ∨ (i = b ∧ j = a))) := by
  cases h : hasEdge g i j with
  | true =>
      have he : hasEdge (add_edge g i j) a b = hasEdge g a b := by
        unfold hasEdge
        rw [edges_add_edge_present g i j h]
      rw [he]
      constructor
      · exact Or.inl
      · rintro (hab | ⟨h1, h2⟩ | ⟨h1, h2⟩)
        · exact hab
        · subst h1; subst h2; exact h
        · subst h1; subst h2
          rw [← hasEdge_comm g i j]
          exact h
  | false =>
      rw [hasEdge_iff, edges_add_edge_not_present g i j h]
      simp only [List.mem_append, List.mem_singleton]
      constructor
      · rintro ⟨e, he | rfl, hm⟩
        · exact Or.inl ((hasEdge_iff g a b).mpr ⟨e, he, hm⟩)
        · exact Or.inr hm
      · rintro (hab | hm)
        · obtain ⟨e, he, hme⟩ := (hasEdge_iff g a b).mp hab
          exact ⟨e, Or.inl he, hme⟩
        · exact ⟨(i, j), Or.inr rfl, hm⟩

lemma nodes_ensureNode_extends (g : Graph) (i : ℕ) :
    ∃ extra, (ensureNode g i).nodes = g.nodes ++ extra ∧
      ∀ q ∈ extra, q.2 = (none : Option NodeAttrs) := by
  unfold ensureNode
  split
  · exact ⟨[], by simp⟩
  · exact ⟨[(i, none)], by simp⟩

lemma nodes_add_edge_extends (g : Graph) (i j : ℕ) :
    ∃ extra, (add_edge g i j).nodes = g.nodes ++ extra ∧
      ∀ q ∈ extra, q.2 = (none : Option NodeAttrs) := by
  obtain ⟨e1, he1, ha1⟩ := nodes_ensureNode_extends g i
  obtain ⟨e2, he2, ha2⟩ := nodes_ensureNode_extends (ensureNode g i) j
  refine ⟨e1 ++ e2, ?_, ?_⟩
  · unfold add_edge addEdgeRaw
    split
    · rw [he2, he1, List.append_assoc]
    · show (ensureNode (ensureNode g i) j).nodes = _
      rw [he2, he1, List.append_assoc]
  · intro q hq
    rcases List.mem_append.mp hq with h | h
    · exact ha1 q h
    · exact ha2 q h

lemma containsNode_add_edge_mono (g : Graph) (i j x : ℕ)
    (h : containsNode g x = true) :
    containsNode (add_edge g i j) x = true := by
  obtain ⟨extra, he, -⟩ := nodes_add_edge_extends g i j
  rw [containsNode_iff, he, List.map_append]
  rw [containsNode_iff] at h
  exact List.mem_append.mpr (Or.inl h)

lemma nodes_add_edge_of_contains (g : Graph) (i j : ℕ)
    (hi : containsNode g i = true) (hj : containsNode g j = true) :
    (add_edge g i j).nodes = g.nodes := by
  have e1 : (ensureNode g i) = g := by
    unfold ensureNode
    rw [if_pos hi]
  unfold add_edge addEdgeRaw
  rw [e1]
  have e2 : (ensureNode g j) = g := by
    unfold ensureNode
    rw [if_pos hj]
  rw [e2]
  split
  · rfl
  · rfl

/-! ### The pair enumeration of the nested loops -/

lemma mem_pairsList (n : ℕ) (p : ℕ × ℕ) :
    p ∈ pairsList n ↔ p.1 < p.2 ∧ p.2 < n := by
  simp only [pairsList, List.mem_flatMap, List.mem_map, List.mem_range,
    List.mem_range'_1]
  constructor
  · rintro ⟨i, hi, j, ⟨h1, h2⟩, rfl⟩
    constructor
    · omega
    · omega
  · rintro ⟨h1, h2⟩
    refine ⟨p.1, by omega, p.2, ⟨by omega, by omega⟩, rfl⟩

lemma fst_lt_snd_of_mem_pairsList {n : ℕ} {p : ℕ × ℕ}
    (h : p ∈ pairsList n) : p.1 < p.2 :=
  ((mem_pairsList n p).mp h).1

lemma pairsList_nodup (n : ℕ) : (pairsList n).Nodup := by
  rw [pairsList, List.nodup_flatMap]
  constructor
  · intro i _
    refine List.Nodup.map ?_ (List.nodup_range' _ _)
    intro a b hab
    exact ((Prod.mk.injEq i a i b).mp hab).2
  · refine List.Pairwise.imp ?_ (List.pairwise_lt_range n)
    intro i j hij
    intro x hx hy
    obtain ⟨a, -, rfl⟩ := List.mem_map.mp hx
    obtain ⟨b, -, hb⟩ := List.mem_map.mp hy
    have : i = j := ((Prod.mk.injEq i a j b).mp hb.symm).1
    omega

/-- The relation on edge entries that says two ordered pairs denote
distinct unordered edges. -/
def unordNe (p q : ℕ × ℕ) : Prop :=
  ¬((p.1 = q.1 ∧ p.2 = q.2) ∨ (p.1 = q.2 ∧ p.2 = q.1))

lemma pairsList_pairwise_unordNe (n : ℕ) :
    (pairsList n).Pairwise unordNe := by
  have hnd : (pairsList n).Pairwise (fun p q : ℕ × ℕ => p ≠ q) := pairsList_nodup n
  refine List.Pairwise.imp_of_mem ?_ hnd
  intro p q hp hq hne
  have hp' := fst_lt_snd_of_mem_pairsList hp
  have hq' := fst_lt_snd_of_mem_pairsList hq
  rintro (⟨h1, h2⟩ | ⟨h1, h2⟩)
  · obtain ⟨p1, p2⟩ := p
    obtain ⟨q1, q2⟩ := q
    simp only at h1 h2
    exact hne (by rw [h1, h2])
  · omega

/-! ### Edge-construction characterization for binary metrics -/

/-- The value `sim_val` that `_add_edges` computes for the pair `p` when
the configured metric is a plain two-argument function `f`. -/
def simVal {α : Type} [Inhabited α] (f : α → α → ℚ) (fps : List α)
    (p : ℕ × ℕ) : ℚ :=
  max (f (fps.getD p.1 default) (fps.getD p.2 default))
      (f (fps.getD p.2 default) (fps.getD p.1 default))

/-- The pure graph fold that `_add_edges` reduces to when the configured
metric is the two-argument function `f` (so the similarity computation
never raises). -/
def edgeFoldSim {α : Type} [Inhabited α] (f : α → α → ℚ) (t : ℚ)
    (fps : List α) (g : Graph) (ps : List (ℕ × ℕ)) : Graph :=
  ps.foldl (fun g p => if simVal f fps p > t then add_edge g p.1 p.2 else g) g

lemma edgeFoldSim_cons {α : Type} [Inhabited α] (f : α → α → ℚ) (t : ℚ)
    (fps : List α) (g : Graph) (p : ℕ × ℕ) (ps : List (ℕ × ℕ)) :
    edgeFoldSim f t fps g (p :: ps) =
      edgeFoldSim f t fps
        (if simVal f fps p > t then add_edge g p.1 p.2 else g) ps := rfl

lemma addEdgesRun_binary {μ α : Type} [Inhabited α] (tk : Toolkit μ α)
    (sc : SimilarityCalculator) (hb : sc.sim_metric ∈ binaryMetricNames)
    (t : ℚ) (fps : List α) :
    ∀ (ps : List (ℕ × ℕ)) (g : Graph),
      addEdgesRun tk sc t fps g ps =
        (edgeFoldSim (tk.binFns sc.sim_metric) t fps g ps, none) := by
  intro ps
  induction ps with
  | nil => intro g; rfl
  | cons p ps ih =>
      intro g
      have hstep : addEdgesRun tk sc t fps g (p :: ps) =
          addEdgesRun tk sc t fps
            (if simVal (tk.binFns sc.sim_metric) fps p > t
             then add_edge g p.1 p.2 else g) ps := by
        conv_lhs => rw [addEdgesRun]
        rw [calculate_similarity_binary tk sc hb]
        rfl
      rw [hstep, ih, edgeFoldSim_cons]

lemma edges_edgeFoldSim {α : Type} [Inhabited α] (f : α → α → ℚ) (t : ℚ)
    (fps : List α) :
    ∀ (ps : List (ℕ × ℕ)) (g : Graph),
      (∀ p ∈ ps, hasEdge g p.1 p.2 = false) →
      ps.Pairwise unordNe →
      (edgeFoldSim f t fps g ps).edges =
        g.edges ++ ps.filter (fun p => decide (simVal f fps p > t)) := by
  intro ps
  induction ps with
  | nil =>
      intro g _ _
      simp [edgeFoldSim]
  | cons p ps ih =>
      intro g hclean hpw
      have hp : hasEdge g p.1 p.2 = false := hclean p (List.mem_cons_self p ps)
      obtain ⟨hhead, htail⟩ := List.pairwise_cons.mp hpw
      rw [edgeFoldSim_cons]
      by_cases hc : simVal f fps p > t
      · rw [if_pos hc]
        have hclean' : ∀ q ∈ ps, hasEdge (add_edge g p.1 p.2) q.1 q.2 = false := by
          intro q hq
          rw [Bool.eq_false_iff]
          intro habs
          rcases (hasEdge_add_edge_iff g p.1 p.2 q.1 q.2).mp habs with hg | hm
          · rw [hclean q (List.mem_cons_of_mem p hq)] at hg
            cases hg
          · exact hhead q hq (by tauto)
        have hfil : List.filter (fun q => decide (simVal f fps q > t)) (p :: ps)
            = p :: List.filter (fun q => decide (simVal f fps q > t)) ps := by
          simp [List.filter_cons, hc]
        rw [ih (add_edge g p.1 p.2) hclean' htail,
          edges_add_edge_not_present g p.1 p.2 hp, hfil, List.append_assoc]
        rfl
      · have hfil : List.filter (fun q => decide (simVal f fps q > t)) (p :: ps)
            = List.filter (fun q => decide (simVal f fps q > t)) ps := by
          simp [List.filter_cons, hc]
        rw [if_neg hc, ih g (fun q hq => hclean q (List.mem_cons_of_mem p hq)) htail,
          hfil]

/-! ### Node construction lemmas -/

lemma edges_addNodeWithAttrs (g : Graph) (i : ℕ) (a : NodeAttrs) :
    (addNodeWithAttrs g i a).edges = g.edges := by
  unfold addNodeWithAttrs
  split <;> rfl

lemma nodes_map_fst_addNodeWithAttrs (g : Graph) (i : ℕ) (a : NodeAttrs) :
    (addNodeWithAttrs g i a).nodes.map Prod.fst =
      g.nodes.map Prod.fst ++ (if containsNode g i then [] else [i]) := by
  unfold addNodeWithAttrs
  split
  · rw [List.append_nil]
    show (g.nodes.map fun p => if p.1 = i then (i, some a) else p).map Prod.fst = _
    rw [List.map_map]
    refine List.map_congr_left ?_
    intro p _
    by_cases hp : p.1 = i
    · simp [hp]
    · simp [hp]
  · simp

lemma containsNode_addNodeWithAttrs_mono (g : Graph) (i x : ℕ) (a : NodeAttrs)
    (h : containsNode g x = true) :
    containsNode (addNodeWithAttrs g i a) x = true := by
  rw [containsNode_iff, nodes_map_fst_addNodeWithAttrs]
  rw [containsNode_iff] at h
  exact List.mem_append.mpr (Or.inl h)

/-- The fold underlying `add_nodes_from`: when every inserted id is fresh
for the starting graph and the inserted ids are distinct, the weighted
nodes are simply appended in order. -/
lemma nodes_foldl_addNode_fresh :
    ∀ (ws : List (ℕ × NodeAttrs)) (g : Graph),
      (∀ p ∈ ws, containsNode g p.1 = false) →
      (ws.map Prod.fst).Nodup →
      (ws.foldl (fun g p => addNodeWithAttrs g p.1 p.2) g).nodes =
        g.nodes ++ ws.map (fun p => (p.1, some p.2)) := by
  intro ws
  induction ws with
  | nil =>
      intro g _ _
      simp
  | cons p ws ih =>
      intro g hfresh hnd
      rw [List.foldl_cons]
      have hp : containsNode g p.1 = false := hfresh p (List.mem_cons_self p ws)
      have hstep : (addNodeWithAttrs g p.1 p.2).nodes = g.nodes ++ [(p.1, some p.2)] := by
        unfold addNodeWithAttrs
        rw [if_neg (by rw [hp]; exact Bool.false_ne_true)]
      rw [List.map_cons, List.nodup_cons] at hnd
      have hfresh' : ∀ q ∈ ws, containsNode (addNodeWithAttrs g p.1 p.2) q.1 = false := by
        intro q hq
        rw [Bool.eq_false_iff]
        intro habs
        rw [containsNode_iff, hstep, List.map_append, List.mem_append] at habs
        rcases habs with h1 | h2
        · have hf := hfresh q (List.mem_cons_of_mem p hq)
          exact (Bool.eq_false_iff.mp hf) ((containsNode_iff g q.1).mpr h1)
        · simp only [List.map_cons, List.map_nil, List.mem_singleton] at h2
          exact hnd.1 (h2 ▸ List.mem_map_of_mem Prod.fst hq)
      rw [ih (addNodeWithAttrs g p.1 p.2) hfresh' hnd.2, hstep, List.append_assoc]
      rfl

/-- The `weighted_nodes` list comprehension of `_add_nodes`. -/
def weightedNodes {β : Type} [Inhabited β] (strB : β → String)
    (smiles_list : List String) (unique_classes : List β)
    (categorical_labels : List ℕ) : List (ℕ × NodeAttrs) :=
  ((List.range smiles_list.length).zip categorical_labels).map fun nv =>
    (nv.1, { smiles := smiles_list.getD nv.1 ""
             categorical_label := strB (unique_classes.getD nv.2 default) :
             NodeAttrs })

lemma add_nodes_eq_foldl {β : Type} [Inhabited β] (strB : β → String)
    (g : Graph) (smiles_list : List String) (unique_classes : List β)
    (categorical_labels : List ℕ) :
    add_nodes strB g smiles_list unique_classes categorical_labels =
      (weightedNodes strB smiles_list unique_classes categorical_labels).foldl
        (fun g p => addNodeWithAttrs g p.1 p.2) g := rfl

lemma map_fst_zip_eq_take {γ δ : Type} :
    ∀ (l1 : List γ) (l2 : List δ),
      (l1.zip l2).map Prod.fst = l1.take l2.length := by
  intro l1
  induction l1 with
  | nil => intro l2; simp
  | cons a l1 ih =>
      intro l2
      cases l2 with
      | nil => simp
      | cons b l2 => simp [ih]

lemma map_fst_zip_range (n : ℕ) (ls : List ℕ) :
    ((List.range n).zip ls).map Prod.fst = List.range (min n ls.length) := by
  rw [map_fst_zip_eq_take, List.take_range, min_comm]

/-! ### Label normalizer lemmas -/

lemma npUnique_sorted {β : Type} [LinearOrder β] (l : List β) :
    (npUnique l).Sorted (· ≤ ·) :=
  List.sorted_insertionSort _ _

lemma npUnique_nodup {β : Type} [LinearOrder β] (l : List β) :
    (npUnique l).Nodup :=
  ((List.perm_insertionSort (· ≤ ·) l.dedup).symm).nodup (List.nodup_dedup l)

lemma mem_npUnique {β : Type} [LinearOrder β] (a : β) (l : List β) :
    a ∈ npUnique l ↔ a ∈ l := by
  rw [npUnique, List.mem_insertionSort, List.mem_dedup]

lemma convert_classes_labels_length {β : Type} [LinearOrder β]
    (classes : List β) :
    (convert_classes classes).2.length = classes.length := by
  simp [convert_classes]

lemma convert_classes_vocab_getD {β : Type} [LinearOrder β] [Inhabited β]
    (classes : List β) (p : ℕ) (hp : p < classes.length) :
    (convert_classes classes).1.getD ((convert_classes classes).2.getD p 0)
        default = classes.getD p default := by
  have hlab : (convert_classes classes).2.getD p 0 =
      (npUnique classes).indexOf (classes.getD p default) := by
    show (classes.map fun c => (npUnique classes).indexOf c).getD p 0 = _
    rw [List.getD_eq_getElem _ _ (by simpa using hp), List.getElem_map,
      List.getD_eq_getElem _ _ hp]
  have hmem : classes.getD p default ∈ npUnique classes := by
    rw [mem_npUnique]
    rw [List.getD_eq_getElem _ _ hp]
    exact List.getElem_mem hp
  have hidx : (npUnique classes).indexOf (classes.getD p default) <
      (npUnique classes).length := List.indexOf_lt_length.mpr hmem
  show (npUnique classes).getD _ default = _
  rw [hlab, List.getD_eq_getElem _ _ hidx, List.getElem_indexOf hidx]

/-! ### Persistence of pre-existing content through one build call -/

lemma edges_addEdgesRun_extends {μ α : Type} [Inhabited α] (tk : Toolkit μ α)
    (sc : SimilarityCalculator) (t : ℚ) (fps : List α) :
    ∀ (ps : List (ℕ × ℕ)) (g : Graph),
      ∃ tail, (addEdgesRun tk sc t fps g ps).1.edges = g.edges ++ tail := by
  intro ps
  induction ps with
  | nil => intro g; exact ⟨[], by simp [addEdgesRun]⟩
  | cons p ps ih =>
      intro g
      show ∃ tail,
        (match calculate_similarity tk sc (fps.getD p.1 default) (fps.getD p.2 default) with
         | Except.error e => (g, some e)
         | Except.ok sim_val =>
             addEdgesRun tk sc t fps
               (if sim_val > t then add_edge g p.1 p.2 else g) ps).1.edges
          = g.edges ++ tail
      cases calculate_similarity tk sc (fps.getD p.1 default) (fps.getD p.2 default) with
      | error e => exact ⟨[], by simp⟩
      | ok sim_val =>
          dsimp only
          by_cases hc : sim_val > t
          · rw [if_pos hc]
            obtain ⟨t1, ht1⟩ := ih (add_edge g p.1 p.2)
            obtain ⟨t2, ht2⟩ := edges_add_edge_extends g p.1 p.2
            exact ⟨t2 ++ t1, by rw [ht1, ht2, List.append_assoc]⟩
          · rw [if_neg hc]
            exact ih g

lemma containsNode_addEdgesRun_mono {μ α : Type} [Inhabited α]
    (tk : Toolkit μ α) (sc : SimilarityCalculator) (t : ℚ) (fps : List α) :
    ∀ (ps : List (ℕ × ℕ)) (g : Graph) (x : ℕ),
      containsNode g x = true →
      containsNode (addEdgesRun tk sc t fps g ps).1 x = true := by
  intro ps
  induction ps with
  | nil => intro g x h; exact h
  | cons p ps ih =>
      intro g x h
      show containsNode
        (match calculate_similarity tk sc (fps.getD p.1 default) (fps.getD p.2 default) with
         | Except.error e => (g, some e)
         | Except.ok sim_val =>
             addEdgesRun tk sc t fps
               (if sim_val > t then add_edge g p.1 p.2 else g) ps).1 x = true
      cases calculate_similarity tk sc (fps.getD p.1 default) (fps.getD p.2 default) with
      | error e => exact h
      | ok sim_val =>
          dsimp only
          by_cases hc : sim_val > t
          · rw [if_pos hc]
            exact ih _ x (containsNode_add_edge_mono g p.1 p.2 x h)
          · rw [if_neg hc]
            exact ih g x h

lemma nodes_addEdgesRun_preserved {μ α : Type} [Inhabited α]
    (tk : Toolkit μ α) (sc : SimilarityCalculator) (t : ℚ) (fps : List α) :
    ∀ (ps : List (ℕ × ℕ)) (g : Graph),
      (∀ p ∈ ps, containsNode g p.1 = true ∧ containsNode g p.2 = true) →
      (addEdgesRun tk sc t fps g ps).1.nodes = g.nodes := by
  intro ps
  induction ps with
  | nil => intro g _; rfl
  | cons p ps ih =>
      intro g hin
      obtain ⟨hp1, hp2⟩ := hin p (List.mem_cons_self p ps)
      show (match calculate_similarity tk sc (fps.getD p.1 default) (fps.getD p.2 default) with
         | Except.error e => (g, some e)
         | Except.ok sim_val =>
             addEdgesRun tk sc t fps
               (if sim_val > t then add_edge g p.1 p.2 else g) ps).1.nodes = g.nodes
      cases calculate_similarity tk sc (fps.getD p.1 default) (fps.getD p.2 default) with
      | error e => rfl
      | ok sim_val =>
          dsimp only
          by_cases hc : sim_val > t
          · rw [if_pos hc]
            have hnn := nodes_add_edge_of_contains g p.1 p.2 hp1 hp2
            rw [ih (add_edge g p.1 p.2) ?_, hnn]
            intro q hq
            have hq' := hin q (List.mem_cons_of_mem p hq)
            constructor
            · rw [containsNode_iff, hnn]
              exact (containsNode_iff g q.1).mp hq'.1
            · rw [containsNode_iff, hnn]
              exact (containsNode_iff g q.2).mp hq'.2
          · rw [if_neg hc]
            exact ih g (fun q hq => hin q (List.mem_cons_of_mem p hq))

lemma nodes_addEdgesRun_extends {μ α : Type} [Inhabited α]
    (tk : Toolkit μ α) (sc : SimilarityCalculator) (t : ℚ) (fps : List α) :
    ∀ (ps : List (ℕ × ℕ)) (g : Graph),
      ∃ extra, (addEdgesRun tk sc t fps g ps).1.nodes = g.nodes ++ extra ∧
        ∀ q ∈ extra, q.2 = (none : Option NodeAttrs) := by
  intro ps
  induction ps with
  | nil => intro g; exact ⟨[], by simp [addEdgesRun]⟩
  | cons p ps ih =>
      intro g
      show ∃ extra,
        (match calculate_similarity tk sc (fps.getD p.1 default) (fps.getD p.2 default) with
         | Except.error e => (g, some e)
         | Except.ok sim_val =>
             addEdgesRun tk sc t fps
               (if sim_val > t then add_edge g p.1 p.2 else g) ps).1.nodes
          = g.nodes ++ extra ∧ ∀ q ∈ extra, q.2 = (none : Option NodeAttrs)
      cases calculate_similarity tk sc (fps.getD p.1 default) (fps.getD p.2 default) with
      | error e => exact ⟨[], by simp⟩
      | ok sim_val =>
          dsimp only
          by_cases hc : sim_val > t
          · rw [if_pos hc]
            obtain ⟨e1, he1, ha1⟩ := nodes_add_edge_extends g p.1 p.2
            obtain ⟨e2, he2, ha2⟩ := ih (add_edge g p.1 p.2)
            refine ⟨e1 ++ e2, ?_, ?_⟩
            · rw [he2, he1, List.append_assoc]
            · intro q hq
              rcases List.mem_append.mp hq with h | h
              · exact ha1 q h
              · exact ha2 q h
          · rw [if_neg hc]
            exact ih g

/-! ### Composite lemmas about one whole build call -/

lemma edges_foldl_addNode :
    ∀ (ws : List (ℕ × NodeAttrs)) (g : Graph),
      (ws.foldl (fun g p => addNodeWithAttrs g p.1 p.2) g).edges = g.edges := by
  intro ws
  induction ws with
  | nil => intro g; rfl
  | cons p ws ih =>
      intro g
      rw [List.foldl_cons, ih, edges_addNodeWithAttrs]

lemma containsNode_foldl_addNode_mono :
    ∀ (ws : List (ℕ × NodeAttrs)) (g : Graph) (x : ℕ),
      containsNode g x = true →
      containsNode (ws.foldl (fun g p => addNodeWithAttrs g p.1 p.2) g) x = true := by
  intro ws
  induction ws with
  | nil => intro g x h; exact h
  | cons p ws ih =>
      intro g x h
      rw [List.foldl_cons]
      exact ih _ x (containsNode_addNodeWithAttrs_mono g p.1 x p.2 h)

lemma hasEdge_of_edges_nil (g : Graph) (h : g.edges = []) (i j : ℕ) :
    hasEdge g i j = false := by
  unfold hasEdge
  rw [h]
  rfl

lemma map_fst_weightedNodes {β : Type} [Inhabited β] (strB : β → String)
    (smiles_list : List String) (unique_classes : List β)
    (categorical_labels : List ℕ) :
    (weightedNodes strB smiles_list unique_classes categorical_labels).map Prod.fst
      = List.range (min smiles_list.length categorical_labels.length) := by
  unfold weightedNodes
  rw [List.map_map]
  exact map_fst_zip_range smiles_list.length categorical_labels

lemma weightedNodes_length {β : Type} [Inhabited β] (strB : β → String)
    (smiles_list : List String) (unique_classes : List β)
    (categorical_labels : List ℕ) :
    (weightedNodes strB smiles_list unique_classes categorical_labels).length
      = min smiles_list.length categorical_labels.length := by
  have h := map_fst_weightedNodes strB smiles_list unique_classes categorical_labels
  have h1 := congrArg List.length h
  simpa using h1

lemma weightedNodes_getElem {β : Type} [Inhabited β] (strB : β → String)
    (smiles_list : List String) (unique_classes : List β)
    (categorical_labels : List ℕ) (k : ℕ)
    (hk : k < min smiles_list.length categorical_labels.length) :
    (weightedNodes strB smiles_list unique_classes categorical_labels).getD k
        (0, default)
      = (k, { smiles := smiles_list.getD k ""
              categorical_label :=
                strB (unique_classes.getD (categorical_labels.getD k 0) default) }) := by
  have hlen : k < (weightedNodes strB smiles_list unique_classes categorical_labels).length := by
    rw [weightedNodes_length]
    exact hk
  rw [List.getD_eq_getElem _ _ hlen]
  unfold weightedNodes
  have hkz : k < ((List.range smiles_list.length).zip categorical_labels).length := by
    rw [List.length_zip]
    simpa using hk
  rw [List.getElem_map]
  rw [List.getElem_zip]
  rw [List.getElem_range]
  have hkc : k < categorical_labels.length := lt_of_lt_of_le hk (min_le_right _ _)
  rw [← List.getD_eq_getElem categorical_labels 0 hkc]

/-- After a successful fingerprint pass, the whole build is the node fold
followed by the pair loop. -/
lemma create_graph_eq_run {μ α β : Type} [Inhabited α] [Inhabited β]
    [LinearOrder β] (tk : Toolkit μ α) (strB : β → String)
    (fc : FingerprintCalculator) (sc : SimilarityCalculator) (t : ℚ)
    (g : Graph) (smiles_list : List String) (classes : List β)
    (fps : List α)
    (hfps : calculate_fingerprints tk fc smiles_list = Except.ok fps) :
    create_graph tk strB fc sc t g smiles_list classes =
      addEdgesRun tk sc t fps
        (add_nodes strB g smiles_list (convert_classes classes).1
          (convert_classes classes).2)
        (pairsList fps.length) := by
  unfold create_graph
  rw [hfps]
  rfl

lemma create_graph_error {μ α β : Type} [Inhabited α] [Inhabited β]
    [LinearOrder β] (tk : Toolkit μ α) (strB : β → String)
    (fc : FingerprintCalculator) (sc : SimilarityCalculator) (t : ℚ)
    (g : Graph) (smiles_list : List String) (classes : List β)
    (e : PyError)
    (hfps : calculate_fingerprints tk fc smiles_list = Except.error e) :
    create_graph tk strB fc sc t g smiles_list classes = (g, some e) := by
  unfold create_graph
  rw [hfps]

/-- Nodes produced by `_add_nodes` on the empty graph. -/
lemma nodes_add_nodes_empty {β : Type} [Inhabited β] (strB : β → String)
    (smiles_list : List String) (unique_classes : List β)
    (categorical_labels : List ℕ) :
    (add_nodes strB emptyGraph smiles_list unique_classes categorical_labels).nodes
      = (weightedNodes strB smiles_list unique_classes categorical_labels).map
          (fun p => (p.1, some p.2)) := by
  rw [add_nodes_eq_foldl,
    nodes_foldl_addNode_fresh _ emptyGraph (fun p _ => rfl)
      (by rw [map_fst_weightedNodes]; exact List.nodup_range _)]
  rfl

/-- The edge list of a successful fresh build with a two-argument metric. -/
lemma edges_create_graph_fresh {μ α β : Type} [Inhabited α] [Inhabited β]
    [LinearOrder β] (tk : Toolkit μ α) (strB : β → String)
    (fc : FingerprintCalculator) (sc : SimilarityCalculator) (t : ℚ)
    (smiles_list : List String) (classes : List β) (fps : List α)
    (hb : sc.sim_metric ∈ binaryMetricNames)
    (hfps : calculate_fingerprints tk fc smiles_list = Except.ok fps) :
    (create_graph tk strB fc sc t emptyGraph smiles_list classes).1.edges
      = (pairsList fps.length).filter
          (fun p => decide (simVal (tk.binFns sc.sim_metric) fps p > t)) := by
  rw [create_graph_eq_run tk strB fc sc t emptyGraph smiles_list classes fps hfps,
    addEdgesRun_binary tk sc hb t fps]
  have hg2 : (add_nodes strB emptyGraph smiles_list (convert_classes classes).1
      (convert_classes classes).2).edges = [] := by
    rw [add_nodes_eq_foldl, edges_foldl_addNode]
    rfl
  rw [edges_edgeFoldSim _ _ _ _ _
    (fun p _ => hasEdge_of_edges_nil _ hg2 p.1 p.2)
    (pairsList_pairwise_unordNe fps.length), hg2]
  rfl

/-- A successful fresh build with a two-argument metric raises nothing. -/
lemma snd_create_graph_fresh {μ α β : Type} [Inhabited α] [Inhabited β]
    [LinearOrder β] (tk : Toolkit μ α) (strB : β → String)
    (fc : FingerprintCalculator) (sc : SimilarityCalculator) (t : ℚ)
    (g : Graph) (smiles_list : List String) (classes : List β) (fps : List α)
    (hb : sc.sim_metric ∈ binaryMetricNames)
    (hfps : calculate_fingerprints tk fc smiles_list = Except.ok fps) :
    (create_graph tk strB fc sc t g smiles_list classes).2 = none := by
  rw [create_graph_eq_run tk strB fc sc t g smiles_list classes fps hfps,
    addEdgesRun_binary tk sc hb t fps]

/-- Node list of a successful fresh build with a two-argument metric and
equal-length inputs: exactly the weighted nodes, untouched by the edge
loop. -/
lemma nodes_create_graph_fresh {μ α β : Type} [Inhabited α] [Inhabited β]
    [LinearOrder β] (tk : Toolkit μ α) (strB : β → String)
    (fc : FingerprintCalculator) (sc : SimilarityCalculator) (t : ℚ)
    (smiles_list : List String) (classes : List β) (fps : List α)
    (hfps : calculate_fingerprints tk fc smiles_list = Except.ok fps)
    (hlen : classes.length = smiles_list.length) :
    (create_graph tk strB fc sc t emptyGraph smiles_list classes).1.nodes
      = (weightedNodes strB smiles_list (convert_classes classes).1
          (convert_classes classes).2).map (fun p => (p.1, some p.2)) := by
  rw [create_graph_eq_run tk strB fc sc t emptyGraph smiles_list classes fps hfps]
  have hnodes : (add_nodes strB emptyGraph smiles_list (convert_classes classes).1
      (convert_classes classes).2).nodes
      = (weightedNodes strB smiles_list (convert_classes classes).1
          (convert_classes classes).2).map (fun p => (p.1, some p.2)) :=
    nodes_add_nodes_empty strB smiles_list _ _
  have hids : (add_nodes strB emptyGraph smiles_list (convert_classes classes).1
      (convert_classes classes).2).nodes.map Prod.fst
      = List.range smiles_list.length := by
    rw [hnodes, List.map_map]
    have hcomp : (Prod.fst ∘ fun p : ℕ × NodeAttrs => (p.1, some p.2)) = Prod.fst := rfl
    rw [hcomp, map_fst_weightedNodes, convert_classes_labels_length, hlen, min_self]
  rw [nodes_addEdgesRun_preserved tk sc t fps (pairsList fps.length) _ ?_, hnodes]
  intro p hp
  obtain ⟨h1, h2⟩ := (mem_pairsList fps.length p).mp hp
  have hn : fps.length = smiles_list.length :=
    calculate_fingerprints_length tk fc smiles_list fps hfps
  constructor
  · rw [containsNode_iff, hids, List.mem_range]
    omega
  · rw [containsNode_iff, hids, List.mem_range]
    omega

/-- Any error escaping the pair loop came out of one similarity call. -/
lemma addEdgesRun_error_shape {μ α : Type} [Inhabited α] (tk : Toolkit μ α)
    (sc : SimilarityCalculator) (t : ℚ) (fps : List α) :
    ∀ (ps : List (ℕ × ℕ)) (g : Graph) (e : PyError),
      (addEdgesRun tk sc t fps g ps).2 = some e →
      ∃ a b, calculate_similarity tk sc a b = Except.error e := by
  intro ps
  induction ps with
  | nil =>
      intro g e h
      cases h
  | cons p ps ih =>
      intro g e h
      rw [show addEdgesRun tk sc t fps g (p :: ps) =
        (match calculate_similarity tk sc (fps.getD p.1 default) (fps.getD p.2 default) with
         | Except.error e => (g, some e)
         | Except.ok sim_val =>
             addEdgesRun tk sc t fps
               (if sim_val > t then add_edge g p.1 p.2 else g) ps) from rfl] at h
      cases hsim : calculate_similarity tk sc (fps.getD p.1 default) (fps.getD p.2 default) with
      | error e' =>
          rw [hsim] at h
          cases h
          exact ⟨_, _, hsim⟩
      | ok sim_val =>
          rw [hsim] at h
          dsimp only at h
          by_cases hc : sim_val > t
          · rw [if_pos hc] at h
            exact ih _ e h
          · rw [if_neg hc] at h
            exact ih g e h

/-- When every similarity call raises, the pair loop raises at its first
pair. -/
lemma addEdgesRun_all_error {μ α : Type} [Inhabited α] (tk : Toolkit μ α)
    (sc : SimilarityCalculator) (t : ℚ) (fps : List α) (e : PyError)
    (hall : ∀ a b : α, calculate_similarity tk sc a b = Except.error e)
    (p : ℕ × ℕ) (ps : List (ℕ × ℕ)) (g : Graph) :
    addEdgesRun tk sc t fps g (p :: ps) = (g, some e) := by
  rw [show addEdgesRun tk sc t fps g (p :: ps) =
    (match calculate_similarity tk sc (fps.getD p.1 default) (fps.getD p.2 default) with
     | Except.error e => (g, some e)
     | Except.ok sim_val =>
         addEdgesRun tk sc t fps
           (if sim_val > t then add_edge g p.1 p.2 else g) ps) from rfl]
  rw [hall]

/-- The fingerprint pass fails with the bare `InvalidSMILESError` as soon
as it reaches position `k`, whenever everything before `k` parses. -/
lemma calculate_fingerprints_fails_at {μ α : Type} (tk : Toolkit μ α)
    (fc : FingerprintCalculator) (hd : fc.descriptor ∈ supportedDescriptors) :
    ∀ (l : List String) (k : ℕ), k < l.length →
      tk.parse (l.getD k "") = none →
      (∀ m, m < k → tk.parse (l.getD m "") ≠ none) →
      calculate_fingerprints tk fc l = Except.error PyError.invalidSMILESError := by
  intro l
  induction l with
  | nil =>
      intro k hk
      simp at hk
  | cons s rest ih =>
      intro k hk hfail hok
      cases k with
      | zero =>
          rw [List.getD_cons_zero] at hfail
          rw [calculate_fingerprints, calculate_fingerprint_of_parse_none tk fc hfail]
      | succ k =>
          cases hp : tk.parse s with
          | none =>
              exact absurd hp (by
                have := hok 0 (Nat.succ_pos k)
                rwa [List.getD_cons_zero] at this)
          | some mol =>
              rw [calculate_fingerprints, calculate_fingerprint_of_parse tk fc hd hp]
              rw [ih k (by simpa using hk)
                (by rwa [List.getD_cons_succ] at hfail)
                (fun m hm => by
                  have := hok (m + 1) (by omega)
                  rwa [List.getD_cons_succ] at this)]

/-- Two lists agreeing on their first `k + 1` entries agree at every
position up to `k`. -/
lemma getD_eq_of_take_eq (l1 l2 : List String) (k : ℕ)
    (h : l1.take (k + 1) = l2.take (k + 1)) (m : ℕ) (hm : m ≤ k) :
    l1.getD m "" = l2.getD m "" := by
  rw [List.getD_eq_getElem?_getD, List.getD_eq_getElem?_getD]
  have h1 : (l1.take (k + 1))[m]? = l1[m]? := by
    rw [List.getElem?_take, if_pos (by omega)]
  have h2 : (l2.take (k + 1))[m]? = l2[m]? := by
    rw [List.getElem?_take, if_pos (by omega)]
  rw [← h1, ← h2, h]

lemma length_ge_of_take_eq (l1 l2 : List String) (k : ℕ)
    (hk : k < l1.length) (h : l2.take (k + 1) = l1.take (k + 1)) :
    k < l2.length := by
  have h1 : (l1.take (k + 1)).length = k + 1 := by
    rw [List.length_take]
    omega
  have h2 : (l2.take (k + 1)).length = k + 1 := by rw [h, h1]
  rw [List.length_take] at h2
  omega

/-! ### Claim theorems -/

/-- C1: for every list of parseable structure identifiers built with a
two-argument (binary) similarity metric, the fresh build has the edge
`{i, j}` (for `i < j < N`) exactly when the maximum of the two argument
orders of the metric on the corresponding fingerprints strictly exceeds
the threshold. -/
theorem claim_C1_edge_iff_max_sim_above_threshold
    {μ α β : Type} [Inhabited α] [Inhabited β] [LinearOrder β]
    (tk : Toolkit μ α) (strB : β → String) (fc : FingerprintCalculator)
    (sc : SimilarityCalculator) (t : ℚ) (smiles_list : List String)
    (classes : List β) (fps : List α)
    (hb : sc.sim_metric ∈ binaryMetricNames)
    (hfps : calculate_fingerprints tk fc smiles_list = Except.ok fps)
    (i j : ℕ) (hij : i < j) (hj : j < smiles_list.length) :
    hasEdge (create_graph tk strB fc sc t emptyGraph smiles_list classes).1 i j = true ↔
      t < max (tk.binFns sc.sim_metric (fps.getD i default) (fps.getD j default))
              (tk.binFns sc.sim_metric (fps.getD j default) (fps.getD i default)) := by
  have hn : fps.length = smiles_list.length :=
    calculate_fingerprints_length tk fc smiles_list fps hfps
  rw [hasEdge_iff,
    edges_create_graph_fresh tk strB fc sc t smiles_list classes fps hb hfps]
  constructor
  · rintro ⟨e, he, hm⟩
    obtain ⟨hep, hec⟩ := List.mem_filter.mp he
    have hlt := fst_lt_snd_of_mem_pairsList hep
    rcases hm with ⟨h1, h2⟩ | ⟨h1, h2⟩
    · obtain ⟨e1, e2⟩ := e
      dsimp only at h1 h2
      subst h1
      subst h2
      exact of_decide_eq_true hec
    · omega
  · intro hlt
    refine ⟨(i, j), List.mem_filter.mpr
      ⟨(mem_pairsList fps.length (i, j)).mpr ⟨hij, by omega⟩,
       decide_eq_true hlt⟩, Or.inl ⟨rfl, rfl⟩⟩

/-- Closed witness for C1 at a concrete stub toolkit and input. -/
theorem claim_C1_witness :
    hasEdge (create_graph tkConst (toString : ℕ → String) ⟨"morgan2"⟩ ⟨"tanimoto"⟩ 0
        emptyGraph ["m1", "m2"] [0, 0]).1 0 1 = true ↔
      (0 : ℚ) < max (tkConst.binFns "tanimoto" (([(), ()] : List Unit).getD 0 default)
          (([(), ()] : List Unit).getD 1 default))
        (tkConst.binFns "tanimoto" (([(), ()] : List Unit).getD 1 default)
          (([(), ()] : List Unit).getD 0 default)) :=
  claim_C1_edge_iff_max_sim_above_threshold tkConst (toString : ℕ → String)
    ⟨"morgan2"⟩ ⟨"tanimoto"⟩ 0 ["m1", "m2"] [0, 0] [(), ()]
    (by decide) (by rfl) 0 1 (by decide) (by decide)

/-- C7: the label normalizer returns the sorted list of distinct labels
as vocabulary together with indices such that looking each index up in
the vocabulary reproduces the raw label at that position, hence the
stringified label round-trips. -/
theorem claim_C7_label_normalizer_roundtrip {β : Type} [LinearOrder β]
    [Inhabited β] (strB : β → String) (classes : List β) :
    (convert_classes classes).1.Sorted (· ≤ ·) ∧
    (convert_classes classes).1.Nodup ∧
    (∀ b, b ∈ (convert_classes classes).1 ↔ b ∈ classes) ∧
    (convert_classes classes).2.length = classes.length ∧
    ∀ p, p < classes.length →
      (convert_classes classes).1.getD ((convert_classes classes).2.getD p 0)
          default = classes.getD p default ∧
      strB ((convert_classes classes).1.getD ((convert_classes classes).2.getD p 0)
          default) = strB (classes.getD p default) := by
  refine ⟨npUnique_sorted classes, npUnique_nodup classes,
    fun b => mem_npUnique b classes, convert_classes_labels_length classes, ?_⟩
  intro p hp
  exact ⟨convert_classes_vocab_getD classes p hp,
    congrArg strB (convert_classes_vocab_getD classes p hp)⟩

/-- Closed witness for C7 on a concrete label list. -/
theorem claim_C7_witness :
    (convert_classes [5, 7, 5]).1.getD ((convert_classes [5, 7, 5]).2.getD 2 0)
        (default : ℕ) = ([5, 7, 5] : List ℕ).getD 2 default :=
  ((claim_C7_label_normalizer_roundtrip (toString : ℕ → String) [5, 7, 5]).2.2.2.2
    2 (by decide)).1

/-- C8: for the same valid input, raising the threshold never increases
the number of edges of a fresh build. -/
theorem claim_C8_edge_count_antitone_in_threshold
    {μ α β : Type} [Inhabited α] [Inhabited β] [LinearOrder β]
    (tk : Toolkit μ α) (strB : β → String) (fc : FingerprintCalculator)
    (sc : SimilarityCalculator) (t1 t2 : ℚ) (smiles_list : List String)
    (classes : List β) (fps : List α)
    (hb : sc.sim_metric ∈ binaryMetricNames)
    (hfps : calculate_fingerprints tk fc smiles_list = Except.ok fps)
    (ht : t1 ≤ t2) :
    (create_graph tk strB fc sc t2 emptyGraph smiles_list classes).1.edges.length ≤
      (create_graph tk strB fc sc t1 emptyGraph smiles_list classes).1.edges.length := by
  rw [edges_create_graph_fresh tk strB fc sc t2 smiles_list classes fps hb hfps,
    edges_create_graph_fresh tk strB fc sc t1 smiles_list classes fps hb hfps]
  refine List.Sublist.length_le (List.monotone_filter_right _ ?_)
  intro p hp
  exact decide_eq_true (lt_of_le_of_lt ht (of_decide_eq_true hp))

/-- Closed witness for C8 at a concrete input and threshold pair. -/
theorem claim_C8_witness :
    (create_graph tkConst (toString : ℕ → String) ⟨"morgan2"⟩ ⟨"tanimoto"⟩ 2
        emptyGraph ["m1", "m2"] [0, 0]).1.edges.length ≤
      (create_graph tkConst (toString : ℕ → String) ⟨"morgan2"⟩ ⟨"tanimoto"⟩ 0
        emptyGraph ["m1", "m2"] [0, 0]).1.edges.length :=
  claim_C8_edge_count_antitone_in_threshold tkConst (toString : ℕ → String)
    ⟨"morgan2"⟩ ⟨"tanimoto"⟩ 0 2 ["m1", "m2"] [0, 0] [(), ()]
    (by decide) (by rfl) (by decide)

/-- C9: a fresh build yields a simple undirected graph: the edge relation
is symmetric, has no self-loop, and the edge list holds no two entries
denoting the same unordered pair. -/
theorem claim_C9_simple_undirected
    {μ α β : Type} [Inhabited α] [Inhabited β] [LinearOrder β]
    (tk : Toolkit μ α) (strB : β → String) (fc : FingerprintCalculator)
    (sc : SimilarityCalculator) (t : ℚ) (smiles_list : List String)
    (classes : List β) (fps : List α)
    (hb : sc.sim_metric ∈ binaryMetricNames)
    (hfps : calculate_fingerprints tk fc smiles_list = Except.ok fps) :
    (∀ i j, hasEdge (create_graph tk strB fc sc t emptyGraph smiles_list classes).1 i j
        = hasEdge (create_graph tk strB fc sc t emptyGraph smiles_list classes).1 j i) ∧
    (∀ i, hasEdge (create_graph tk strB fc sc t emptyGraph smiles_list classes).1 i i
        = false) ∧
    (create_graph tk strB fc sc t emptyGraph smiles_list classes).1.edges.Pairwise
      unordNe := by
  have hedges := edges_create_graph_fresh tk strB fc sc t smiles_list classes fps hb hfps
  refine ⟨fun i j => hasEdge_comm _ i j, ?_, ?_⟩
  · intro i
    rw [Bool.eq_false_iff]
    intro habs
    obtain ⟨e, he, hm⟩ := (hasEdge_iff _ i i).mp habs
    rw [hedges] at he
    have hlt := fst_lt_snd_of_mem_pairsList (List.mem_filter.mp he).1
    rcases hm with ⟨h1, h2⟩ | ⟨h1, h2⟩ <;> omega
  · rw [hedges]
    exact List.Pairwise.sublist (List.filter_sublist _)
      (pairsList_pairwise_unordNe fps.length)

/-- Closed witness for C9 at a concrete input. -/
theorem claim_C9_witness :
    hasEdge (create_graph tkConst (toString : ℕ → String) ⟨"morgan2"⟩ ⟨"tanimoto"⟩ 0
        emptyGraph ["m1", "m2"] [0, 0]).1 1 1 = false :=
  (claim_C9_simple_undirected tkConst (toString : ℕ → String)
    ⟨"morgan2"⟩ ⟨"tanimoto"⟩ 0 ["m1", "m2"] [0, 0] [(), ()]
    (by decide) (by rfl)).2.1 1

/-- C2: a successful fresh build on equal-length valid inputs produces
exactly `N` nodes with ids `0..N-1` in input order, node `k` carrying the
`k`-th identifier and the string form of `vocabulary[indices[k]]`. -/
theorem claim_C2_nodes_in_input_order
    {μ α β : Type} [Inhabited α] [Inhabited β] [LinearOrder β]
    (tk : Toolkit μ α) (strB : β → String) (fc : FingerprintCalculator)
    (sc : SimilarityCalculator) (t : ℚ) (smiles_list : List String)
    (classes : List β) (fps : List α)
    (hb : sc.sim_metric ∈ binaryMetricNames)
    (hfps : calculate_fingerprints tk fc smiles_list = Except.ok fps)
    (hlen : classes.length = smiles_list.length) :
    (create_graph tk strB fc sc t emptyGraph smiles_list classes).2 = none ∧
    (create_graph tk strB fc sc t emptyGraph smiles_list classes).1.nodes.map Prod.fst
      = List.range smiles_list.length ∧
    ∀ k, k < smiles_list.length →
      (create_graph tk strB fc sc t emptyGraph smiles_list classes).1.nodes.getD k
          (0, none)
        = (k, some { smiles := smiles_list.getD k ""
                     categorical_label := strB ((convert_classes classes).1.getD
                        ((convert_classes classes).2.getD k 0) default) }) := by
  have hnodes := nodes_create_graph_fresh tk strB fc sc t smiles_list classes fps
    hfps hlen
  have hminn : min smiles_list.length (convert_classes classes).2.length
      = smiles_list.length := by
    rw [convert_classes_labels_length, hlen, min_self]
  refine ⟨snd_create_graph_fresh tk strB fc sc t emptyGraph smiles_list classes fps
    hb hfps, ?_, ?_⟩
  · rw [hnodes, List.map_map]
    have hcomp : (Prod.fst ∘ fun p : ℕ × NodeAttrs => (p.1, some p.2)) = Prod.fst := rfl
    rw [hcomp, map_fst_weightedNodes, hminn]
  · intro k hk
    have hkw : k < (weightedNodes strB smiles_list (convert_classes classes).1
        (convert_classes classes).2).length := by
      rw [weightedNodes_length, hminn]
      exact hk
    have hw := weightedNodes_getElem strB smiles_list (convert_classes classes).1
      (convert_classes classes).2 k (by rw [hminn]; exact hk)
    rw [List.getD_eq_getElem _ _ hkw] at hw
    have hkn : k < ((weightedNodes strB smiles_list (convert_classes classes).1
        (convert_classes classes).2).map (fun p => (p.1, some p.2))).length := by
      simpa using hkw
    rw [hnodes, List.getD_eq_getElem _ _ hkn, List.getElem_map, hw]

/-- Closed witness for C2 at a concrete input. -/
theorem claim_C2_witness :
    (create_graph tkConst (toString : ℕ → String) ⟨"morgan2"⟩ ⟨"tanimoto"⟩ 2
        emptyGraph ["m1", "m2", "m3"] [5, 7, 5]).1.nodes.getD 2 (0, none)
      = (2, some { smiles := (["m1", "m2", "m3"] : List String).getD 2 ""
                   categorical_label := toString ((convert_classes [5, 7, 5]).1.getD
                      ((convert_classes [5, 7, 5]).2.getD 2 0) default) }) :=
  (claim_C2_nodes_in_input_order tkConst (toString : ℕ → String)
    ⟨"morgan2"⟩ ⟨"tanimoto"⟩ 2 ["m1", "m2", "m3"] [5, 7, 5] [(), (), ()]
    (by decide) (by rfl) (by decide)).2.2 2 (by decide)

/-- C3 counterexample: on mismatched-length inputs (three identifiers,
two labels) the build raises no error at all — there is no shape check
in the code — and it does mutate the previously empty Network, so the
claimed `ShapeMismatch`-before-any-side-effect behaviour is absent. -/
theorem claim_C3_counterexample :
    (create_graph tkConst (toString : ℕ → String) ⟨"morgan2"⟩ ⟨"tanimoto"⟩ 2
        emptyGraph ["a", "b", "c"] [0, 1]).2 = none ∧
    (create_graph tkConst (toString : ℕ → String) ⟨"morgan2"⟩ ⟨"tanimoto"⟩ 2
        emptyGraph ["a", "b", "c"] [0, 1]).1 ≠ emptyGraph := by
  decide

/-- C3 amended: mismatched-length inputs raise no error; the build
silently proceeds, and (on a fresh Network, with every identifier
parseable and a two-argument metric) attribute-carrying nodes are exactly
the ids `0..min(N_ids, N_labels)-1` — `zip` truncation — while the
Network is mutated rather than left unchanged. -/
theorem claim_C3_amended_no_shape_check
    {μ α β : Type} [Inhabited α] [Inhabited β] [LinearOrder β]
    (tk : Toolkit μ α) (strB : β → String) (fc : FingerprintCalculator)
    (sc : SimilarityCalculator) (t : ℚ) (smiles_list : List String)
    (classes : List β) (fps : List α)
    (hb : sc.sim_metric ∈ binaryMetricNames)
    (hfps : calculate_fingerprints tk fc smiles_list = Except.ok fps) :
    (create_graph tk strB fc sc t emptyGraph smiles_list classes).2 = none ∧
    ((create_graph tk strB fc sc t emptyGraph smiles_list classes).1.nodes.filter
        (fun p => p.2.isSome)).map Prod.fst
      = List.range (min smiles_list.length classes.length) := by
  refine ⟨snd_create_graph_fresh tk strB fc sc t emptyGraph smiles_list classes fps
    hb hfps, ?_⟩
  rw [create_graph_eq_run tk strB fc sc t emptyGraph smiles_list classes fps hfps]
  obtain ⟨extra, hex, hall⟩ := nodes_addEdgesRun_extends tk sc t fps
    (pairsList fps.length)
    (add_nodes strB emptyGraph smiles_list (convert_classes classes).1
      (convert_classes classes).2)
  rw [hex, nodes_add_nodes_empty, List.filter_append]
  have h1 : ((weightedNodes strB smiles_list (convert_classes classes).1
      (convert_classes classes).2).map (fun p => (p.1, some p.2))).filter
        (fun p => p.2.isSome)
      = (weightedNodes strB smiles_list (convert_classes classes).1
          (convert_classes classes).2).map (fun p => (p.1, some p.2)) := by
    rw [List.filter_eq_self]
    intro a ha
    obtain ⟨q, -, rfl⟩ := List.mem_map.mp ha
    rfl
  have h2 : extra.filter (fun p => p.2.isSome) = [] := by
    rw [List.filter_eq_nil_iff]
    intro q hq
    rw [hall q hq]
    exact Bool.false_ne_true
  rw [h1, h2, List.append_nil, List.map_map]
  have hcomp : (Prod.fst ∘ fun p : ℕ × NodeAttrs => (p.1, some p.2)) = Prod.fst := rfl
  rw [hcomp, map_fst_weightedNodes, convert_classes_labels_length]

/-- Closed witness for the amended C3 on mismatched-length inputs. -/
theorem claim_C3_amended_witness :
    (create_graph tkConst (toString : ℕ → String) ⟨"morgan2"⟩ ⟨"tanimoto"⟩ 2
        emptyGraph ["a", "b", "c"] [0, 1]).2 = none ∧
    ((create_graph tkConst (toString : ℕ → String) ⟨"morgan2"⟩ ⟨"tanimoto"⟩ 2
        emptyGraph ["a", "b", "c"] [0, 1]).1.nodes.filter
        (fun p => p.2.isSome)).map Prod.fst
      = List.range (min (["a", "b", "c"] : List String).length
          ([0, 1] : List ℕ).length) :=
  claim_C3_amended_no_shape_check tkConst (toString : ℕ → String)
    ⟨"morgan2"⟩ ⟨"tanimoto"⟩ 2 ["a", "b", "c"] [0, 1] [(), (), ()]
    (by decide) (by rfl)

/-- C4 counterexample: build `["a","b"]` (which adds edge `{0,1}`), then
build `["c"]` on the same builder; the result still has two nodes and the
old edge, unlike a fresh build of `["c"]`, so a second call does not
rebuild from scratch. -/
theorem claim_C4_counterexample :
    (create_graph tkConst (toString : ℕ → String) ⟨"morgan2"⟩ ⟨"tanimoto"⟩ 0
        (create_graph tkConst (toString : ℕ → String) ⟨"morgan2"⟩ ⟨"tanimoto"⟩ 0
          emptyGraph ["a", "b"] [0, 0]).1 ["c"] [1]).1 ≠
      (create_graph tkConst (toString : ℕ → String) ⟨"morgan2"⟩ ⟨"tanimoto"⟩ 0
        emptyGraph ["c"] [1]).1 := by
  decide

/-- C4 amended: a build call never clears the builder's Network; it
accumulates: every pre-existing edge stays (new edges are appended after
them) and every pre-existing node id stays, whatever the call's inputs
and outcome. -/
theorem claim_C4_amended_build_accumulates
    {μ α β : Type} [Inhabited α] [Inhabited β] [LinearOrder β]
    (tk : Toolkit μ α) (strB : β → String) (fc : FingerprintCalculator)
    (sc : SimilarityCalculator) (t : ℚ) (g : Graph)
    (smiles_list : List String) (classes : List β) :
    (∃ tail, (create_graph tk strB fc sc t g smiles_list classes).1.edges
        = g.edges ++ tail) ∧
    ∀ x, containsNode g x = true →
      containsNode (create_graph tk strB fc sc t g smiles_list classes).1 x = true := by
  cases hfps : calculate_fingerprints tk fc smiles_list with
  | error e =>
      rw [create_graph_error tk strB fc sc t g smiles_list classes e hfps]
      exact ⟨⟨[], by simp⟩, fun x h => h⟩
  | ok fps =>
      rw [create_graph_eq_run tk strB fc sc t g smiles_list classes fps hfps]
      constructor
      · obtain ⟨tail, ht⟩ := edges_addEdgesRun_extends tk sc t fps
          (pairsList fps.length)
          (add_nodes strB g smiles_list (convert_classes classes).1
            (convert_classes classes).2)
        refine ⟨tail, ?_⟩
        rw [ht, add_nodes_eq_foldl, edges_foldl_addNode]
      · intro x hx
        refine containsNode_addEdgesRun_mono tk sc t fps (pairsList fps.length) _ x ?_
        rw [add_nodes_eq_foldl]
        exact containsNode_foldl_addNode_mono _ g x hx

/-- Closed witness for the amended C4: a node id present before the call
is still present after it. -/
theorem claim_C4_amended_witness :
    containsNode (create_graph tkConst (toString : ℕ → String) ⟨"morgan2"⟩
        ⟨"tanimoto"⟩ 0 { nodes := [(7, none)], edges := [(3, 4)] } ["a"] [0]).1 7
      = true :=
  (claim_C4_amended_build_accumulates tkConst (toString : ℕ → String)
    ⟨"morgan2"⟩ ⟨"tanimoto"⟩ 0 { nodes := [(7, none)], edges := [(3, 4)] }
    ["a"] [0]).2 7 (by decide)

/-- C5 counterexample: the constructors store unvalidated names, and the
resulting `KeyError` for an unsupported descriptor kind or metric is
raised during the build call (at first fingerprint computation and first
similarity computation respectively), not at builder construction. -/
theorem claim_C5_counterexample :
    (create_graph tkConst (toString : ℕ → String) ⟨"bogus"⟩ ⟨"tanimoto"⟩ 2
        emptyGraph ["a"] [0]).2 = some (PyError.keyError "bogus") ∧
    (create_graph tkConst (toString : ℕ → String) ⟨"morgan2"⟩ ⟨"bogusmetric"⟩ 2
        emptyGraph ["a", "b"] [0, 1]).2 = some (PyError.keyError "bogusmetric") := by
  decide

/-- C5 amended: no name validation happens at construction time (the
constructors always succeed); the `KeyError` for an unknown name only
surfaces during build, and with supported descriptor and metric names a
build never produces a `KeyError`. -/
theorem claim_C5_amended_no_keyerror_for_supported
    {μ α β : Type} [Inhabited α] [Inhabited β] [LinearOrder β]
    (tk : Toolkit μ α) (strB : β → String) (fc : FingerprintCalculator)
    (sc : SimilarityCalculator) (t : ℚ) (g : Graph)
    (smiles_list : List String) (classes : List β)
    (hd : fc.descriptor ∈ supportedDescriptors)
    (hm : sc.sim_metric ∈ metricNames) (s : String) :
    (create_graph tk strB fc sc t g smiles_list classes).2
      ≠ some (PyError.keyError s) := by
  intro habs
  cases hfps : calculate_fingerprints tk fc smiles_list with
  | error e =>
      have he := calculate_fingerprints_error_supported tk fc hd smiles_list e hfps
      subst he
      rw [create_graph_error tk strB fc sc t g smiles_list classes _ hfps] at habs
      simp at habs
  | ok fps =>
      rw [create_graph_eq_run tk strB fc sc t g smiles_list classes fps hfps] at habs
      obtain ⟨a, b, hsim⟩ := addEdgesRun_error_shape tk sc t fps
        (pairsList fps.length) _ _ habs
      have := calculate_similarity_error_of_supported tk sc hm a b _ hsim
      simp at this

/-- Closed witness for the amended C5 at a concrete supported
configuration. -/
theorem claim_C5_amended_witness :
    (create_graph tkConst (toString : ℕ → String) ⟨"morgan2"⟩ ⟨"tanimoto"⟩ 2
        emptyGraph ["a"] [0]).2 ≠ some (PyError.keyError "morgan2") :=
  claim_C5_amended_no_keyerror_for_supported tkConst (toString : ℕ → String)
    ⟨"morgan2"⟩ ⟨"tanimoto"⟩ 2 emptyGraph ["a"] [0]
    (by decide) (by decide) "morgan2"

/-- C6 counterexample: two builds failing on different unparseable
identifiers raise the very same bare `InvalidSMILESError` value, so the
raised error does not identify the offending identifier. -/
theorem claim_C6_counterexample :
    (create_graph tkNone (toString : ℕ → String) ⟨"morgan2"⟩ ⟨"tanimoto"⟩ 2
        emptyGraph ["AA"] [0]).2 = some PyError.invalidSMILESError ∧
    (create_graph tkNone (toString : ℕ → String) ⟨"morgan2"⟩ ⟨"tanimoto"⟩ 2
        emptyGraph ["BB"] [0]).2 = some PyError.invalidSMILESError := by
  decide

/-- C6 amended: when the first unparseable identifier sits at position
`k`, the build fails with the bare `InvalidSMILESError` (carrying no
identifier), the Network is returned exactly as it was (no node added),
and the outcome only depends on the first `k + 1` identifiers — nothing
after position `k` is processed. -/
theorem claim_C6_amended_fail_fast_no_mutation
    {μ α β : Type} [Inhabited α] [Inhabited β] [LinearOrder β]
    (tk : Toolkit μ α) (strB : β → String) (fc : FingerprintCalculator)
    (sc : SimilarityCalculator) (t : ℚ) (g : Graph)
    (smiles_list : List String) (classes : List β) (k : ℕ)
    (hd : fc.descriptor ∈ supportedDescriptors)
    (hk : k < smiles_list.length)
    (hfail : tk.parse (smiles_list.getD k "") = none)
    (hok : ∀ m, m < k → tk.parse (smiles_list.getD m "") ≠ none) :
    create_graph tk strB fc sc t g smiles_list classes
        = (g, some PyError.invalidSMILESError) ∧
    ∀ l2 : List String, l2.take (k + 1) = smiles_list.take (k + 1) →
      create_graph tk strB fc sc t g l2 classes
        = (g, some PyError.invalidSMILESError) := by
  have main : ∀ l2 : List String, l2.take (k + 1) = smiles_list.take (k + 1) →
      create_graph tk strB fc sc t g l2 classes
        = (g, some PyError.invalidSMILESError) := by
    intro l2 hl2
    have hk2 : k < l2.length := length_ge_of_take_eq smiles_list l2 k hk hl2
    have heq : ∀ m, m ≤ k → l2.getD m "" = smiles_list.getD m "" :=
      fun m hm => getD_eq_of_take_eq l2 smiles_list k hl2 m hm
    refine create_graph_error tk strB fc sc t g l2 classes _
      (calculate_fingerprints_fails_at tk fc hd l2 k hk2 ?_ ?_)
    · rw [heq k le_rfl]
      exact hfail
    · intro m hm
      rw [heq m (le_of_lt hm)]
      exact hok m hm
  exact ⟨main smiles_list rfl, main⟩

/-- Closed witness for the amended C6 with the spec's scenario shape:
the second identifier is the first unparseable one. -/
theorem claim_C6_amended_witness :
    create_graph tkBogus (toString : ℕ → String) ⟨"morgan2"⟩ ⟨"tanimoto"⟩ 2
        emptyGraph ["valid_a", "bogus!!", "valid_c"] [0, 1, 2]
      = (emptyGraph, some PyError.invalidSMILESError) :=
  (claim_C6_amended_fail_fast_no_mutation tkBogus (toString : ℕ → String)
    ⟨"morgan2"⟩ ⟨"tanimoto"⟩ 2 emptyGraph ["valid_a", "bogus!!", "valid_c"]
    [0, 1, 2] 1 (by decide) (by decide) (by decide)
    (by intro m hm; have hm0 : m = 0 := by omega
        subst hm0; decide)).1

/-- C10: with the metric name `"tversky"` the stored dictionary entry
takes four arguments, so every two-argument similarity call raises a
`TypeError`, and consequently no build over two or more structures can
ever succeed under that configuration. -/
theorem claim_C10_tversky_always_fails
    {μ α β : Type} [Inhabited α] [Inhabited β] [LinearOrder β]
    (tk : Toolkit μ α) (strB : β → String) (fc : FingerprintCalculator)
    (sc : SimilarityCalculator) (t : ℚ)
    (htv : sc.sim_metric = "tversky") :
    (∀ fp1 fp2 : α, calculate_similarity tk sc fp1 fp2
        = Except.error PyError.typeError) ∧
    ∀ (g : Graph) (smiles_list : List String) (classes : List β),
      2 ≤ smiles_list.length →
      (create_graph tk strB fc sc t g smiles_list classes).2 ≠ none := by
  refine ⟨fun fp1 fp2 => calculate_similarity_tversky tk sc htv fp1 fp2, ?_⟩
  intro g smiles_list classes h2 habs
  cases hfps : calculate_fingerprints tk fc smiles_list with
  | error e =>
      rw [create_graph_error tk strB fc sc t g smiles_list classes e hfps] at habs
      simp at habs
  | ok fps =>
      rw [create_graph_eq_run tk strB fc sc t g smiles_list classes fps hfps] at habs
      have hn : fps.length = smiles_list.length :=
        calculate_fingerprints_length tk fc smiles_list fps hfps
      have hmem : ((0, 1) : ℕ × ℕ) ∈ pairsList fps.length :=
        (mem_pairsList fps.length (0, 1)).mpr ⟨by decide, by omega⟩
      rcases hps : pairsList fps.length with _ | ⟨p, ps⟩
      · rw [hps] at hmem
        cases hmem
      · rw [hps] at habs
        rw [addEdgesRun_all_error tk sc t fps PyError.typeError
          (fun a b => calculate_similarity_tversky tk sc htv a b) p ps _] at habs
        simp at habs

/-- Closed witness for C10 at a concrete configuration. -/
theorem claim_C10_witness :
    calculate_similarity tkConst ⟨"tversky"⟩ () () = Except.error PyError.typeError ∧
    (create_graph tkConst (toString : ℕ → String) ⟨"morgan2"⟩ ⟨"tversky"⟩ 0
        emptyGraph ["a", "b"] [0, 1]).2 ≠ none :=
  ⟨(claim_C10_tversky_always_fails (β := ℕ) tkConst (toString : ℕ → String)
      ⟨"morgan2"⟩ ⟨"tversky"⟩ 0 rfl).1 () (),
   (claim_C10_tversky_always_fails tkConst (toString : ℕ → String)
      ⟨"morgan2"⟩ ⟨"tversky"⟩ 0 rfl).2 emptyGraph ["a", "b"] [0, 1] (by decide)⟩

end MolNet
